import Mathlib

/-!
Verification development for the `rest` repository's Model Registry /
Schema Synthesis Engine (`schema.go`).

The Go code is shallowly embedded: `openapi3.Schema` values become the
`Rest.Schema` structure, Go pointers (`*openapi3.Schema`) become addresses
into an explicit heap (`List Schema`), `reflect.Type` becomes the
`Rest.GoType` inductive together with an environment mapping named struct
types to their field lists, and `API.RegisterModel` becomes the fuel-indexed
function `Rest.registerModel` returning the mutated state together with the
Go function's named results `(name, schema, err)`.

Floating point is modelled with `Rat` (exact); IEEE rounding of
`strconv.ParseFloat` is not modelled, and no theorem below depends on a
float value that rounds.  `fmt.Println` logging is a no-op.  Underscore
digit separators of Go integer literals are not modelled by the numeric
string readers (no theorem instantiates them).
-/

namespace Rest

/-! ## Character and string helpers mirroring the Go standard library -/

/-- Whitespace per `unicode.IsSpace` restricted to the code points the
repository's comments can contain (ASCII space classes plus NEL and NBSP). -/
def isGoSpace (c : Char) : Bool :=
  c = ' ' || c = '\t' || c = '\n' || c = (Char.ofNat 11) || c = (Char.ofNat 12) ||
  c = '\r' || c = (Char.ofNat 0x85) || c = (Char.ofNat 0xA0)

/-- Go `strings.Split` on a single-character separator, on character lists.
`strings.Split("", sep)` returns `[""]`, matched by the base case. -/
def splitCharList (sep : Char) : List Char → List (List Char)
  | [] => [[]]
  | x :: xs =>
    let r := splitCharList sep xs
    if x = sep then [] :: r
    else
      match r with
      | h :: t => (x :: h) :: t
      | [] => [[x]]

/-- Go `strings.Split(s, sep)` for a single-character separator. -/
def goSplit (s : String) (sep : Char) : List String :=
  (splitCharList sep s.data).map (fun l => ⟨l⟩)

/-- Boolean list-prefix test (the Go `strings.HasPrefix` on char lists). -/
def listStartsWith : List Char → List Char → Bool
  | [], _ => true
  | _ :: _, [] => false
  | p :: ps, x :: xs => p = x && listStartsWith ps xs

/-- Go `strings.HasPrefix(s, pre)`. -/
def goStartsWith (s pre : String) : Bool :=
  listStartsWith pre.data s.data

/-- Drop leading Go whitespace. -/
def trimLeftChars (l : List Char) : List Char :=
  l.dropWhile isGoSpace

/-- Drop trailing Go whitespace. -/
def trimRightChars : List Char → List Char
  | [] => []
  | x :: xs =>
    match trimRightChars xs with
    | [] => if isGoSpace x then [] else [x]
    | r => x :: r

/-- Go `strings.TrimSpace`. -/
def goTrimSpace (s : String) : String :=
  ⟨trimRightChars (trimLeftChars s.data)⟩

/-- Leading-whitespace-only trim (used to state the specification's
"after trimming leading whitespace" wording). -/
def goTrimLeft (s : String) : String :=
  ⟨trimLeftChars s.data⟩

/-! ## Numeric string readers (`strconv`) -/

def isDigitChar (c : Char) : Bool := '0' ≤ c && c ≤ '9'

def digitVal (c : Char) : Nat := c.toNat - '0'.toNat

def isHexChar (c : Char) : Bool :=
  isDigitChar c || ('a' ≤ c && c ≤ 'f') || ('A' ≤ c && c ≤ 'F')

def hexVal (c : Char) : Nat :=
  if isDigitChar c then digitVal c
  else if 'a' ≤ c && c ≤ 'f' then c.toNat - 'a'.toNat + 10
  else c.toNat - 'A'.toNat + 10

/-- Read a nonempty digit string in base `b`. -/
def readDigits (b : Nat) (isD : Char → Bool) (val : Char → Nat) (l : List Char) :
    Option Nat :=
  if l.isEmpty then none
  else l.foldl (fun acc c =>
    acc.bind (fun n => if isD c then some (n * b + val c) else none)) (some 0)

def splitSign : List Char → Int × List Char
  | '+' :: r => (1, r)
  | '-' :: r => (-1, r)
  | r => (1, r)

def int64Max : Int := 2 ^ 63 - 1

def int64Min : Int := -(2 ^ 63)

def inInt64Range (v : Int) : Bool := int64Min ≤ v && v ≤ int64Max

/-- Go `strconv.Atoi` (equivalently `strconv.ParseInt(s, 10, 0)` on a 64-bit
platform): optional sign, base-10 digits, 64-bit range check. -/
def parseAtoi (s : String) : Option Int :=
  let (sign, rest) := splitSign s.data
  (readDigits 10 isDigitChar digitVal rest).bind (fun m =>
    let v := sign * (m : Int)
    if inInt64Range v then some v else none)

def isOctChar (c : Char) : Bool := '0' ≤ c && c ≤ '7'

def isBinChar (c : Char) : Bool := c = '0' || c = '1'

/-- Go `strconv.ParseInt(s, 0, 64)`: optional sign, then base detection from a
`0x`/`0o`/`0b`/leading-`0` prefix, 64-bit range check. -/
def parseGoInt0 (s : String) : Option Int :=
  let (sign, rest) := splitSign s.data
  let mag : Option Nat :=
    match rest with
    | '0' :: 'x' :: r => readDigits 16 isHexChar hexVal r
    | '0' :: 'X' :: r => readDigits 16 isHexChar hexVal r
    | '0' :: 'o' :: r => readDigits 8 isOctChar digitVal r
    | '0' :: 'O' :: r => readDigits 8 isOctChar digitVal r
    | '0' :: 'b' :: r => readDigits 2 isBinChar digitVal r
    | '0' :: 'B' :: r => readDigits 2 isBinChar digitVal r
    | '0' :: r => if r.isEmpty then some 0 else readDigits 8 isOctChar digitVal r
    | r => readDigits 10 isDigitChar digitVal r
  mag.bind (fun m =>
    let v := sign * (m : Int)
    if inInt64Range v then some v else none)

def pow10 (n : Nat) : Rat := (10 : Rat) ^ n

/-- Decimal/scientific-notation part of `strconv.ParseFloat`, returning the
exact rational value (IEEE rounding, `Inf`, `NaN` and hex floats are not
modelled). -/
def parseGoFloat (s : String) : Option Rat :=
  let (sign, rest) := splitSign s.data
  let (mantissa, expPart) :=
    match splitCharList 'e' (rest.map (fun c => if c = 'E' then 'e' else c)) with
    | [m] => (m, some ([] : List Char))
    | [m, e] => (m, some e)
    | _ => (([] : List Char), none)
  match expPart with
  | none => none
  | some e =>
    let (intPart, fracPart) :=
      match splitCharList '.' mantissa with
      | [i] => (some i, some ([] : List Char))
      | [i, f] => (some i, some f)
      | _ => (none, none)
    match intPart, fracPart with
    | some i, some f =>
      if i.isEmpty && f.isEmpty then none
      else
        let iv := if i.isEmpty then some 0 else readDigits 10 isDigitChar digitVal i
        let fv := if f.isEmpty then some 0 else readDigits 10 isDigitChar digitVal f
        let ev : Option Int :=
          if e.isEmpty then some 0
          else
            let (es, ed) := splitSign e
            (readDigits 10 isDigitChar digitVal ed).map (fun m => es * (m : Int))
        match iv, fv, ev with
        | some ivn, some fvn, some evn =>
          let base : Rat := (sign : Rat) * ((ivn : Rat) + (fvn : Rat) / pow10 f.length)
          some (if 0 ≤ evn then base * pow10 evn.toNat else base / pow10 (-evn).toNat)
        | _, _, _ => none
    | _, _ => none

/-- Go's `uint64(i)` conversion of an `int64` (two's-complement wrap). -/
def int64ToUInt64 (i : Int) : Nat := (i % (2 ^ 64 : Int)).toNat

/-! ## The schema data model (`openapi3.Schema` and `openapi3.SchemaRef`)

Only the fields `schema.go` reads or writes are carried.  A Go
`*openapi3.Schema` is an address (`Nat`) into an explicit heap; an
`openapi3.SchemaRef` is either a symbolic `$ref` string or such an address
(`NewSchemaRef` is only ever called with exactly one of the two set). -/

/-- An entry of the untyped `Enum []interface{}` list.  `null` is the nil
interface slot left behind by `WithMinMaxEnum` on an unparseable element. -/
inductive EnumVal where
  | str (s : String)
  | num (q : Rat)
  | null
deriving DecidableEq, Repr

inductive SchemaRef where
  /-- Go `openapi3.NewSchemaRef(ref, nil)` with a nonempty `$ref` string. -/
  | ref (r : String)
  /-- Go `openapi3.NewSchemaRef("", schema)`: the pointer to a schema node. -/
  | val (addr : Nat)
deriving DecidableEq, Repr

structure Schema where
  /-- Go `Schema.Type` (`*openapi3.Types`); the code only ever stores a single
  kind string. -/
  type : Option String := none
  format : String := ""
  nullable : Bool := false
  description : String := ""
  deprecated : Bool := false
  /-- Go `Schema.Min` (`*float64`), exact rational model. -/
  min : Option Rat := none
  max : Option Rat := none
  /-- Go `Schema.MinLength` is a plain `uint64` with zero value 0. -/
  minLength : Nat := 0
  /-- Go `Schema.MaxLength` is a `*uint64`. -/
  maxLength : Option Nat := none
  pattern : String := ""
  enum : List EnumVal := []
  /-- Go `Schema.Properties`, an insertion-ordered model of the Go map. -/
  properties : List (String × SchemaRef) := []
  required : List String := []
  items : Option SchemaRef := none
  /-- Go `Schema.AdditionalProperties.Schema`. -/
  additionalProps : Option SchemaRef := none
  /-- Go `Schema.Example` (`example` is a Lean keyword). -/
  exampleVal : Option EnumVal := none
deriving DecidableEq, Repr

instance : Inhabited Schema := ⟨{}⟩

/-- Map-style assignment `m[k] = v` on the association-list model. -/
def setKey (l : List (String × SchemaRef)) (k : String) (v : SchemaRef) :
    List (String × SchemaRef) :=
  if l.any (fun p => p.1 == k) then
    l.map (fun p => if p.1 == k then (k, v) else p)
  else l ++ [(k, v)]

/-- Go `delete(m, k)` on an association list of definitions. -/
def eraseKey (l : List (String × Nat)) (k : String) : List (String × Nat) :=
  l.filter (fun p => p.1 != k)

/-- Go `m[k] = v` for the definitions map. -/
def setKeyAddr (l : List (String × Nat)) (k : String) (v : Nat) :
    List (String × Nat) :=
  if l.any (fun p => p.1 == k) then
    l.map (fun p => if p.1 == k then (k, v) else p)
  else l ++ [(k, v)]

/-- The heap of schema nodes; an address is an index. -/
abbrev Heap := List Schema

def heapRead (h : Heap) (a : Nat) : Schema := h.getD a {}

/-- In-place mutation through a pointer: rewrite the node at `a`. -/
def heapWrite (h : Heap) (a : Nat) (f : Schema → Schema) : Heap :=
  h.set a (f (heapRead h a))

/-- Go `&openapi3.Schema{...}`: allocate a fresh node, returning its address. -/
def heapAlloc (h : Heap) (s : Schema) : Nat × Heap := (h.length, h ++ [s])

/-! ## The reflective type model (`reflect.Type`)

Cycles among named struct types make a purely inductive type impossible, so
named struct types are references resolved through an environment. -/

inductive PrimKind where
  | str | bool
  | int | int8 | int16 | int32 | int64
  | uint | uint8 | uint16 | uint32 | uint64 | uintptr
  | float32 | float64
deriving DecidableEq, Repr

/-- Go `reflect.Kind.String()` for the primitive kinds. -/
def PrimKind.kindName : PrimKind → String
  | .str => "string"
  | .bool => "bool"
  | .int => "int"
  | .int8 => "int8"
  | .int16 => "int16"
  | .int32 => "int32"
  | .int64 => "int64"
  | .uint => "uint"
  | .uint8 => "uint8"
  | .uint16 => "uint16"
  | .uint32 => "uint32"
  | .uint64 => "uint64"
  | .uintptr => "uintptr"
  | .float32 => "float32"
  | .float64 => "float64"

inductive GoType where
  /-- A type of primitive kind: a builtin (`pkgPath = ""`, `name` the kind
  name, e.g. `string`) or a named defined type (`type Pence int64`). -/
  | prim (pkgPath name : String) (k : PrimKind)
  | slice (elem : GoType)
  | array (elem : GoType)
  | ptr (elem : GoType)
  | mapT (key elem : GoType)
  /-- A named struct type; its fields live in the environment. -/
  | structRef (pkgPath name : String)
  /-- A kind with no synthesis branch (func, chan, interface, ...). -/
  | unsupported (pkgPath name : String)
deriving DecidableEq, Repr

/-- The builtin `string` type (`reflect.TypeOf("")`). -/
def goString : GoType := .prim "" "string" .str

def goInt : GoType := .prim "" "int" .int

def goUint8 : GoType := .prim "" "uint8" .uint8

/-- Go `t.PkgPath()`: empty for unnamed composite types. -/
def GoType.pkgPath : GoType → String
  | .prim p _ _ => p
  | .structRef p _ => p
  | .unsupported p _ => p
  | _ => ""

/-- Go `t.Name()`: empty for unnamed composite types. -/
def GoType.name : GoType → String
  | .prim _ n _ => n
  | .structRef _ n => n
  | .unsupported _ n => n
  | _ => ""

/-- Last path segment of a package path (`reflect`'s short package name). -/
def shortPkg (p : String) : String :=
  ((goSplit p '/').getLast? ).getD ""

/-- Go `t.String()`, the key of the `visitedModels` set. -/
def GoType.tString : GoType → String
  | .prim p n _ => if p = "" then n else shortPkg p ++ "." ++ n
  | .slice e => "[]" ++ e.tString
  | .array e => "[1]" ++ e.tString
  | .ptr e => "*" ++ e.tString
  | .mapT k v => "map[" ++ k.tString ++ "]" ++ v.tString
  | .structRef p n => if p = "" then n else shortPkg p ++ "." ++ n
  | .unsupported p n => if p = "" then n else shortPkg p ++ "." ++ n

/-- The kinds the synthesis switch distinguishes. -/
inductive TKind where
  | prim (k : PrimKind)
  | slice | array | ptr | mapT | structT | unsupported
deriving DecidableEq, Repr

def GoType.kind : GoType → TKind
  | .prim _ _ k => .prim k
  | .slice _ => .slice
  | .array _ => .array
  | .ptr _ => .ptr
  | .mapT _ _ => .mapT
  | .structRef _ _ => .structT
  | .unsupported _ _ => .unsupported

/-- Go `t.Elem()` (meaningful for slice/array/pointer/map types). -/
def GoType.elemT : GoType → GoType
  | .slice e => e
  | .array e => e
  | .ptr e => e
  | .mapT _ v => v
  | t => t

/-- Go `t.Key()` (meaningful for map types). -/
def GoType.keyT : GoType → GoType
  | .mapT k _ => k
  | t => t

/-- One struct field as `reflect.StructField` exposes it: identifier, type,
tag key/value pairs, anonymous (embedded) flag, exported flag. -/
structure StructField where
  name : String
  typ : GoType
  tags : List (String × String) := []
  anonymous : Bool := false
  exported : Bool := true

/-- Go `reflect.StructTag.Get`: the empty string when the key is absent. -/
def tagGet (tags : List (String × String)) (k : String) : String :=
  ((tags.lookup k).getD "")

/-- An environment entry for one named type: its struct fields (empty for
named non-struct types) and its optional `ApplyCustomSchema` method. -/
structure EnvEntry where
  pkgPath : String
  name : String
  fields : List StructField := []
  custom : Option (Schema → Schema) := none

abbrev Env := List EnvEntry

def envLookup (env : Env) (p n : String) : Option EnvEntry :=
  env.find? (fun e => e.pkgPath == p && e.name == n)

/-- Go `t.NumField()` / `t.Field(i)` for a named struct type. -/
def envFields (env : Env) (p n : String) : List StructField :=
  ((envLookup env p n).map (fun e => e.fields)).getD []

/-! ## `openapi3` schema constructors used by `schema.go` -/

def newStringSchema : Schema := { type := some "string" }

def newIntegerSchema : Schema := { type := some "integer" }

def newFloat64Schema : Schema := { type := some "number" }

def newBoolSchema : Schema := { type := some "boolean" }

def newObjectSchema : Schema := { type := some "object" }

def newArraySchema : Schema := { type := some "array" }

/-! ## Pure helpers of `schema.go` -/

/-- Go `reflectPrimitives`: the reserved primitive-kind names. -/
def reflectPrimitives : List String :=
  ["int", "int8", "int16", "int32", "int64",
   "uint", "uint8", "uint16", "uint32", "uint64",
   "float64", "float32", "bool", "string"]

/-- Go `slices.Contains(reflectPrimitives, name)`. -/
def primsContains (name : String) : Bool :=
  reflectPrimitives.contains name

/-- Go `isMarkedAsDeprecated`: a comment is deprecated when some line, after
`strings.TrimSpace`, has the prefix `Deprecated:`. -/
def isMarkedAsDeprecated (comment : String) : Bool :=
  (goSplit comment '\n').any (fun line =>
    goStartsWith (goTrimSpace line) "Deprecated:")

/-- Go `isFieldRequired`. -/
def isFieldRequired (isPointer hasOmitEmpty : Bool) : Bool :=
  !(isPointer || hasOmitEmpty)

/-- The `normalizer` replacer: `/`, `.`, `[`, `]` each become `_`. -/
def normalizerChar (c : Char) : Char :=
  if c = '/' || c = '.' || c = '[' || c = ']' then '_' else c

def normalizerReplace (s : String) : String := ⟨s.data.map normalizerChar⟩

/-- Go `API.normalizeTypeName`. -/
def normalizeTypeName (stripPkgPaths : List String) (pkgPath name : String) :
    String :=
  let omitPackage := stripPkgPaths.any (fun pkg => goStartsWith pkgPath pkg)
  if omitPackage || pkgPath = "" then normalizerReplace name
  else normalizerReplace (pkgPath ++ "/" ++ name)

/-- Go `shouldBeReferenced`: genuine object schemas (no additional-properties
value) and any schema with a nonempty enum list are referenceable. -/
def shouldBeReferenced (schema : Schema) : Bool :=
  if schema.type = some "object" && schema.additionalProps = none then true
  else if schema.enum.length > 0 then true
  else false

/-- Go `getSchemaReferenceOrValue`: symbolic `$ref` for referenceable schemas
under a non-reserved name, otherwise the inline pointer. -/
def getSchemaReferenceOrValue (name : String) (heap : Heap) (addr : Nat) :
    SchemaRef :=
  if !primsContains name && shouldBeReferenced (heapRead heap addr) then
    .ref ("#/components/schemas/" ++ name)
  else .val addr

/-- Go `IntOrFloatToFloat`: bit length 0 parses with `ParseInt(v, 0, 64)` and
converts, a positive bit length parses as a float. -/
def intOrFloatToFloat (val : String) (bitlength : Nat) : Option Rat :=
  if bitlength > 0 then parseGoFloat val
  else (parseGoInt0 val).map (fun v => (v : Rat))

/-- Go `WithMinMaxEnum`: attach minimum, maximum and enum values; an
unparseable minimum or maximum is logged and skipped, an unparseable enum
element leaves its slot as the nil interface (`EnumVal.null`). -/
def withMinMaxEnum (bitlength : Nat) (minimum maximum enum : String)
    (schema : Schema) : Schema :=
  let schema :=
    if minimum ≠ "" then
      match intOrFloatToFloat minimum bitlength with
      | none => schema
      | some m => { schema with min := some m }
    else schema
  let schema :=
    if maximum ≠ "" then
      match intOrFloatToFloat maximum bitlength with
      | none => schema
      | some m => { schema with max := some m }
    else schema
  if enum ≠ "" then
    let enums := goSplit enum ','
    let s := enums.map (fun v =>
      match intOrFloatToFloat v bitlength with
      | none => EnumVal.null
      | some q => EnumVal.num q)
    { schema with enum := s }
  else schema

/-- Go `WithMinLMaxLEnum`: attach minLength, maxLength and string enum values;
an unparseable length is logged and skipped.  `WithMinLength`/`WithMaxLength`
convert the parsed `int` through `uint64`. -/
def withMinLMaxLEnum (minLength maxLength enum : String) (schema : Schema) :
    Schema :=
  let schema :=
    if minLength ≠ "" then
      match parseAtoi minLength with
      | none => schema
      | some v => { schema with minLength := int64ToUInt64 v }
    else schema
  let schema :=
    if maxLength ≠ "" then
      match parseAtoi maxLength with
      | none => schema
      | some v => { schema with maxLength := some (int64ToUInt64 v) }
    else schema
  if enum ≠ "" then
    let enums := goSplit enum ','
    { schema with enum := enums.map (fun v => EnumVal.str v) }
  else schema

/-- The closed-set pattern built in `WithPropsFromStructTags`:
`"^(" + join(split(set,","),"|") + ")(, \x7b0,1\x7d(" + ... + "))*$"`. -/
def mkSetPattern (set : String) : String :=
  "^(" ++ String.intercalate "|" (goSplit set ',') ++ ")(, \x7b0,1\x7d(" ++
    String.intercalate "|" (goSplit set ',') ++ "))*$"

/-- Go `WithPropsFromStructTags`: dispatch tag-derived constraints on the
field's kind; pointer fields unwrap one level and recurse. -/
def withPropsFromStructTags (tags : List (String × String)) :
    GoType → Schema → Schema
  | fieldType, schema =>
    let minimum := tagGet tags "minimum"
    let maximum := tagGet tags "maximum"
    let minLength := tagGet tags "minLength"
    let maxLength := tagGet tags "maxLength"
    let enum := tagGet tags "enums"
    let set := tagGet tags "set"
    match fieldType with
    | .prim _ _ k =>
      match k with
      | .int | .int8 | .int16 | .int32 | .int64
      | .uint | .uint8 | .uint16 | .uint32 | .uint64 =>
        withMinMaxEnum 0 minimum maximum enum schema
      | .float32 => withMinMaxEnum 32 minimum maximum enum schema
      | .float64 => withMinMaxEnum 64 minimum maximum enum schema
      | .str =>
        let schema := withMinLMaxLEnum minLength maxLength enum schema
        if set ≠ "" then { schema with pattern := mkSetPattern set }
        else schema
      | _ => schema
    | .ptr e => withPropsFromStructTags tags e schema
    | _ => schema

/-! ## Model options (`ModelOpts`) -/

/-- A registration option mutates the final schema node. -/
abbrev ModelOpts := Schema → Schema

/-- Go `WithNullable`. -/
def withNullable : ModelOpts := fun s => { s with nullable := true }

/-- Go `WithDescription`. -/
def withDescription (desc : String) : ModelOpts :=
  fun s => { s with description := desc }

/-- Go `WithEnumValues` instantiated at a string-kinded type parameter. -/
def withEnumValuesStr (values : List String) : ModelOpts := fun s =>
  if values.isEmpty then s
  else { s with type := some "string",
                enum := s.enum ++ values.map (fun v => EnumVal.str v) }

/-- Go `WithEnumValues` instantiated at an integer-kinded type parameter. -/
def withEnumValuesInt (values : List Int) : ModelOpts := fun s =>
  if values.isEmpty then s
  else { s with type := some "integer",
                enum := s.enum ++ values.map (fun v => EnumVal.num (v : Rat)) }

/-- Go `WithExample`. -/
def withExample (ex : EnumVal) : ModelOpts :=
  fun s => { s with exampleVal := some ex }

/-! ## Registry state (`API`) and `RegisterModel` -/

/-- The mutable registry state of one `API` value, plus the external comment
collaborator (`getcomments/parser.Get`) as an oracle.  The schema heap makes
Go pointer sharing explicit. -/
structure API where
  stripPkgPaths : List String := []
  knownTypes : List (GoType × Schema) := []
  /-- Go `api.models`: canonical name to schema pointer (the definitions map). -/
  models : List (String × Nat) := []
  /-- Go `api.visitedModels`: the cycle-detection set, keyed by `t.String()`. -/
  visitedModels : List String := []
  /-- Go `api.comments`: the per-package comment cache. -/
  comments : List (String × List (String × String)) := []
  /-- The external `parser.Get` collaborator. -/
  commentsSource : String → Except String (List (String × String)) :=
    fun _ => .ok []
  applyCustomSchemaToType : Option (GoType → Schema → Schema) := none
  heap : Heap := []

/-- Go `API.getModelName`. -/
def getModelName (api : API) (t : GoType) : String :=
  let pkgPath := t.pkgPath
  let typeName := t.name
  let (pkgPath, typeName) :=
    if t.kind = .ptr then (t.elemT.pkgPath, t.elemT.name ++ "Ptr")
    else (pkgPath, typeName)
  let typeName :=
    if t.kind = .mapT then "map[" ++ t.keyT.name ++ "]" ++ t.elemT.name
    else typeName
  let schemaName := normalizeTypeName api.stripPkgPaths pkgPath typeName
  if typeName = "" then "AnonymousType" ++ toString api.models.length
  else schemaName

/-- Go `API.getCommentsForPackage`: consult the cache, else the collaborator,
caching a successful answer. -/
def getCommentsForPackage (api : API) (pkg : String) :
    API × Except String (List (String × String)) :=
  match api.comments.lookup pkg with
  | some pc => (api, .ok pc)
  | none =>
    match api.commentsSource pkg with
    | .error e => (api, .error e)
    | .ok pc => ({ api with comments := api.comments ++ [(pkg, pc)] }, .ok pc)

/-- Go `API.getTypeComment`. -/
def getTypeComment (api : API) (pkg name : String) :
    API × Except String (String × Bool) :=
  match getCommentsForPackage api pkg with
  | (api, .error e) => (api, .error e)
  | (api, .ok pc) =>
    let comment := (pc.lookup (pkg ++ "." ++ name)).getD ""
    (api, .ok (comment, isMarkedAsDeprecated comment))

/-- Go `API.getTypeFieldComment`. -/
def getTypeFieldComment (api : API) (pkg name field : String) :
    API × Except String (String × Bool) :=
  match getCommentsForPackage api pkg with
  | (api, .error e) => (api, .error e)
  | (api, .ok pc) =>
    let comment := (pc.lookup (pkg ++ "." ++ name ++ "." ++ field)).getD ""
    (api, .ok (comment, isMarkedAsDeprecated comment))

/-- Modelled from the spec: the `Model` value (its Go source file is not
under `src/`).  Per §6, a model couples a Type Descriptor with the type's
optional self-customization capability, invoked after base synthesis. -/
structure Model where
  typ : GoType
  custom : Option (Schema → Schema) := none

/-- Modelled from the spec: `modelFromType` builds a `Model` for a nested
type, discovering the self-customization method of a named type (§6); the
call site `model.ApplyCustomSchema(schema)` is in `schema.go`. -/
def modelFromType (env : Env) (t : GoType) : Model :=
  let custom :=
    match t with
    | .structRef p n => (envLookup env p n).bind (fun e => e.custom)
    | .prim p n _ => if n = "" then none else (envLookup env p n).bind (fun e => e.custom)
    | _ => none
  { typ := t, custom }

/-- The named results `(name, schema, err)` of `RegisterModel` together with
the mutated registry state (the Go receiver is a pointer, so state mutations
survive an error return). -/
structure RegResult where
  api : API
  name : String
  schema : Option Nat := none
  err : Option String := none

/-- The memoization read of `RegisterModel`: the definitions map is
consulted only for non-reserved names. -/
def memoLookup (api : API) (name : String) : Option Nat :=
  if primsContains name then none else api.models.lookup name

/-- The common tail of `RegisterModel` after the kind switch: global
customization callback, the model's own `ApplyCustomSchema`, the per-call
options, then the persistence decision. -/
def finishRegister (api : API) (t : GoType) (model : Model)
    (opts : List ModelOpts) (name : String) (a : Nat) (err : Option String) :
    RegResult :=
  let api :=
    match api.applyCustomSchemaToType with
    | some f => { api with heap := heapWrite api.heap a (f t) }
    | none => api
  let api :=
    match model.custom with
    | some f => { api with heap := heapWrite api.heap a f }
    | none => api
  let api := opts.foldl (fun acc o => { acc with heap := heapWrite acc.heap a o }) api
  if !primsContains name && shouldBeReferenced (heapRead api.heap a) then
    ⟨{ api with models := setKeyAddr api.models name a }, name, some a, err⟩
  else
    ⟨api, name, some a, err⟩

/-- The effective type of a struct field after the `swaggertype` tag:
only the value `"string"` has a case in the switch. -/
def applySwaggerTypeOverride (fieldTypeOverride : String) (fieldType : GoType) :
    GoType :=
  if fieldTypeOverride ≠ "" then
    match fieldTypeOverride with
    | "string" => goString
    | _ => fieldType
  else fieldType

/-- One unfolding of `API.RegisterModel`; `recur` is the recursive
registration of nested types.  Factored out so that the fuel-indexed
`registerModel` below is structurally recursive. -/
def registerModelStep (env : Env)
    (recur : API → Model → List ModelOpts → RegResult)
    (api : API) (model : Model) (opts : List ModelOpts) : RegResult :=
    let t := model.typ
    let name := getModelName api t
    match memoLookup api name with
    | some a => ⟨api, name, some a, none⟩
    | none =>
      match api.knownTypes.lookup t with
      | some knownSchema =>
        let (a, heap) := heapAlloc api.heap knownSchema
        let api := { api with heap }
        if !primsContains name && shouldBeReferenced knownSchema then
          ⟨{ api with models := setKeyAddr api.models name a }, name, some a, none⟩
        else ⟨api, name, some a, none⟩
      | none =>
        if t.kind = .structT && api.visitedModels.contains t.tString then
          -- Recursion detected: return a minimal placeholder object schema.
          let (a, heap) := heapAlloc api.heap { type := some "object" }
          ⟨{ api with heap }, name, some a, none⟩
        else
          let api :=
            if t.kind = .structT then
              { api with visitedModels := api.visitedModels ++ [t.tString] }
            else api
          match t.kind with
          | .slice | .array =>
            let r := recur api (modelFromType env t.elemT) []
            match r.schema, r.err with
            | some ea, none =>
              let items := getSchemaReferenceOrValue r.name r.api.heap ea
              let (a, heap) := heapAlloc r.api.heap
                { newArraySchema with nullable := true, items := some items }
              finishRegister { r.api with heap } t model opts name a none
            | _, _ =>
              ⟨r.api, name, none,
               some ("error getting schema of slice element " ++ t.elemT.tString ++
                     ": " ++ (r.err.getD ""))⟩
          | .prim k =>
            let base :=
              match k with
              | .str => newStringSchema
              | .bool => newBoolSchema
              | .float32 => newFloat64Schema
              | .float64 => newFloat64Schema
              | _ => newIntegerSchema
            let (a, heap) := heapAlloc api.heap base
            finishRegister { api with heap } t model opts name a none
          | .ptr =>
            let r := recur api (modelFromType env t.elemT) [withNullable]
            match r.schema with
            | none =>
              ⟨r.api, r.name, none,
               some ("unsupported type: " ++ t.pkgPath ++ "/" ++ t.name)⟩
            | some a => finishRegister r.api t model opts r.name a r.err
          | .mapT =>
            match t.keyT.kind with
            | .prim .str =>
              let r := recur api (modelFromType env t.elemT) []
              match r.schema, r.err with
              | some ea, none =>
                let ap := getSchemaReferenceOrValue r.name r.api.heap ea
                let (a, heap) := heapAlloc r.api.heap
                  { newObjectSchema with nullable := true, additionalProps := some ap }
                finishRegister { r.api with heap } t model opts name a none
              | _, _ =>
                ⟨r.api, name, none,
                 some ("error getting schema of map value element " ++
                       t.elemT.tString ++ ": " ++ (r.err.getD ""))⟩
            | _ =>
              ⟨api, name, none,
               some ("maps must have a string key, but this map is of type \"" ++
                     t.keyT.tString ++ "\"")⟩
          | .structT =>
            let (a, heap) := heapAlloc api.heap { newObjectSchema with properties := [] }
            let api := { api with heap }
            match getTypeComment api t.pkgPath t.name with
            | (api, .error e) =>
              ⟨api, name, some a,
               some ("failed to get comments for type " ++ name ++ ": " ++ e)⟩
            | (api, .ok (comment, depr)) =>
              let api := { api with heap := (heapWrite api.heap a
                (fun s => { s with description := comment, deprecated := depr })) }
              let fields := envFields env t.pkgPath t.name
              let acc := fields.foldl (fun (acc : API × Option String) f =>
                match acc with
                | (api, some e) => (api, some e)
                | (api, none) =>
                  if !f.exported then (api, none)
                  else
                    let jsonTags := goSplit (tagGet f.tags "json") ','
                    let fieldTypeOverride := tagGet f.tags "swaggertype"
                    let fieldType := applySwaggerTypeOverride fieldTypeOverride f.typ
                    let fieldName0 := jsonTags.headD ""
                    let fieldName := if fieldName0 = "" then f.name else fieldName0
                    let tempOpts :=
                      if (goSplit (tagGet f.tags "validate") ',').contains "omitempty"
                      then [withNullable] else []
                    let alreadyExists :=
                      (api.models.lookup (getModelName api fieldType)).isSome
                    let r := recur api (modelFromType env fieldType) tempOpts
                    let api :=
                      match r.schema with
                      | some fa =>
                        { r.api with heap := (heapWrite r.api.heap fa
                            (withPropsFromStructTags f.tags fieldType)) }
                      | none => r.api
                    match r.err with
                    | some e =>
                      (api, some ("error getting schema for type \"" ++ t.tString ++
                                  "\", field \"" ++ fieldName ++
                                  "\", failed to get schema for embedded type \"" ++
                                  fieldType.tString ++ "\": " ++ e))
                    | none =>
                      match r.schema with
                      | none => (api, none)
                      | some fa =>
                        if f.anonymous then
                          let api :=
                            if !alreadyExists then
                              { api with models := eraseKey api.models r.name }
                            else api
                          let fsch := heapRead api.heap fa
                          let api := { api with heap := (heapWrite api.heap a (fun s =>
                            { s with
                              properties := fsch.properties.foldl
                                (fun ps p => setKey ps p.1 p.2) s.properties,
                              required := s.required ++ fsch.required })) }
                          (api, none)
                        else
                          let ref := getSchemaReferenceOrValue r.name api.heap fa
                          match ref with
                          | .val va =>
                            match getTypeFieldComment api t.pkgPath t.name f.name with
                            | (api, .error e) =>
                              (api, some ("failed to get comments for field " ++
                                          fieldName ++ " in type " ++ name ++ ": " ++ e))
                            | (api, .ok (c, d)) =>
                              let api := { api with heap := (heapWrite api.heap va
                                (fun s => { s with description := c, deprecated := d })) }
                              let api := { api with heap := (heapWrite api.heap a
                                (fun s => { s with properties := setKey s.properties fieldName ref })) }
                              (api, none)
                          | .ref _ =>
                            let api := { api with heap := (heapWrite api.heap a
                              (fun s => { s with properties := setKey s.properties fieldName ref })) }
                            (api, none)) (api, (none : Option String))
              match acc with
              | (api, some e) => ⟨api, name, some a, some e⟩
              | (api, none) => finishRegister api t model opts name a none
          | .unsupported =>
            ⟨api, name, none,
             some ("unsupported type: " ++ t.pkgPath ++ "/" ++ t.name)⟩

/-- Go `API.RegisterModel`, fuel-indexed (the Go recursion has no structural
measure; every theorem below exhibits a sufficient fuel).  Returns the Go
function's named results plus the mutated state. -/
def registerModel (env : Env) : Nat → API → Model → List ModelOpts → RegResult
  | 0, api, _, _ => ⟨api, "", none, some "registration fuel exhausted"⟩
  | fuel + 1, api, model, opts =>
    registerModelStep env (registerModel env fuel) api model opts

/-! ## A small regular-expression interpreter

The `set` tag compiles to a pattern string that an external validator
interprets as a regular expression.  To settle acceptance claims about the
pattern, the fragment the synthesized patterns use (literals, groups,
alternation, `*`, the `\x7b0,1\x7d` quantifier, `^...$` anchors) is given
standard semantics via Brzozowski derivatives. -/

inductive RE where
  | emp
  | eps
  | chr (c : Char)
  | cat (a b : RE)
  | alt (a b : RE)
  | star (a : RE)
deriving DecidableEq, Repr

def mkCat : RE → RE → RE
  | .emp, _ => .emp
  | _, .emp => .emp
  | .eps, b => b
  | a, .eps => a
  | a, b => .cat a b

def mkAlt : RE → RE → RE
  | .emp, b => b
  | a, .emp => a
  | a, b => .alt a b

def RE.nullable : RE → Bool
  | .emp => false
  | .eps => true
  | .chr _ => false
  | .cat a b => a.nullable && b.nullable
  | .alt a b => a.nullable || b.nullable
  | .star _ => true

def RE.deriv : RE → Char → RE
  | .emp, _ => .emp
  | .eps, _ => .emp
  | .chr c, x => if x = c then .eps else .emp
  | .cat a b, x =>
    if a.nullable then mkAlt (mkCat (a.deriv x) b) (b.deriv x)
    else mkCat (a.deriv x) b
  | .alt a b, x => mkAlt (a.deriv x) (b.deriv x)
  | .star a, x => mkCat (a.deriv x) (.star a)

/-- Whole-string acceptance. -/
def RE.accepts (r : RE) (s : String) : Bool :=
  (s.data.foldl RE.deriv r).nullable

/-- Characters the pattern fragment treats as metacharacters. -/
def isMetaChar (c : Char) : Bool :=
  c = '(' || c = ')' || c = '|' || c = '*' || c = (Char.ofNat 123) ||
  c = (Char.ofNat 125) || c = '^' || c = '$'

/-- Parse one atom (a group via the sub-parser `sub`, or a literal). -/
def parseAtomWith (sub : List Char → Option (RE × List Char)) :
    List Char → Option (RE × List Char)
  | '(' :: rest =>
    (match sub rest with
     | some (r, ')' :: rem) => some (r, rem)
     | _ => none)
  | c :: rest => if isMetaChar c then none else some (.chr c, rest)
  | [] => none

/-- Parse an atom with an optional `*` or `\x7b0,1\x7d` postfix quantifier. -/
def parsePostWith (sub : List Char → Option (RE × List Char))
    (l : List Char) : Option (RE × List Char) :=
  match parseAtomWith sub l with
  | none => none
  | some (r, rest) =>
    match rest with
    | '*' :: rest => some (.star r, rest)
    | b0 :: '0' :: ',' :: '1' :: b1 :: rest2 =>
      if b0 = Char.ofNat 123 && b1 = Char.ofNat 125 then
        some (mkAlt .eps r, rest2)
      else some (r, b0 :: '0' :: ',' :: '1' :: b1 :: rest2)
    | _ => some (r, rest)

/-- Parse a concatenation of postfixed atoms, stopping at `)` or `|`. -/
def parseSeqWith (sub : List Char → Option (RE × List Char)) :
    Nat → RE → List Char → Option (RE × List Char)
  | 0, _, _ => none
  | _, acc, [] => some (acc, [])
  | _, acc, ')' :: rest => some (acc, ')' :: rest)
  | _, acc, '|' :: rest => some (acc, '|' :: rest)
  | sf + 1, acc, l =>
    match parsePostWith sub l with
    | none => none
    | some (r, rest) => parseSeqWith sub sf (mkCat acc r) rest

/-- One unfolding of the alternation parser: a sequence, optionally followed
by `|` and a further alternation (both through `sub`). -/
def parseAltStep (sub : List Char → Option (RE × List Char))
    (l : List Char) : Option (RE × List Char) :=
  match parseSeqWith sub (l.length + 1) .eps l with
  | none => none
  | some (r, '|' :: rest) =>
    (match sub rest with
     | some (r2, rem) => some (mkAlt r r2, rem)
     | none => none)
  | some (r, rest) => some (r, rest)

/-- Parse one alternation; fuel-indexed recursive descent.  Returns the
expression and the unconsumed input, or `none` outside the fragment. -/
def parseAltRE : Nat → List Char → Option (RE × List Char)
  | 0, _ => none
  | fuel + 1, l => parseAltStep (parseAltRE fuel) l

/-- Compile an anchored `^...$` pattern string from the supported fragment. -/
def compilePattern (p : String) : Option RE :=
  match p.data with
  | '^' :: rest =>
    match rest.reverse with
    | '$' :: revBody =>
      match parseAltRE (p.length + 1) revBody.reverse with
      | some (r, []) => some r
      | _ => none
    | _ => none
  | _ => none

/-- Acceptance of a string by an anchored pattern string; `none` when the
pattern falls outside the interpreted fragment. -/
def patternAccepts (p s : String) : Option Bool :=
  (compilePattern p).map (fun r => r.accepts s)

/-! ## Concrete registration scenarios

Each claim gets its own environment and run so the theorems stay
independent.  Fuel 10 is ample: every scenario's recursion depth is at
most 4, and none of the runs below returns the fuel-exhaustion error. -/

/-- Two record types referencing each other through optional pointer
fields, the schematic shape of §8 property 2. -/
def envC1 : Env :=
  [ { pkgPath := "", name := "A",
      fields := [ { name := "Model", typ := .ptr (.structRef "" "B"),
                    tags := [("json", "model"), ("validate", "omitempty")] } ] },
    { pkgPath := "", name := "B",
      fields := [ { name := "Recursive", typ := .ptr (.structRef "" "A"),
                    tags := [("json", "recursive"), ("validate", "omitempty")] } ] } ]

def regC1 : RegResult :=
  registerModel envC1 10 {} (modelFromType envC1 (.structRef "" "A")) []

/-- How many definitions entries carry a given canonical name. -/
def defCount (api : API) (n : String) : Nat :=
  (api.models.filter (fun p => p.1 == n)).length

/-- A registry state with a (synthetically) occupied reserved name, to
exhibit that the memo read ignores reserved primitive-kind names. -/
def apiC2 : API := { models := [("string", 0)], heap := [newIntegerSchema] }

def regC2 : RegResult :=
  registerModel [] 1 apiC2 (modelFromType [] goString) []

/-- A record with a plain string field whose enum comes from struct tags. -/
def envC3 : Env :=
  [ { pkgPath := "", name := "TEnum",
      fields := [ { name := "Baz", typ := goString,
                    tags := [("json", "baz"), ("enums", "foo,bar,baz")] } ] } ]

def regC3 : RegResult :=
  registerModel envC3 10 {} (modelFromType envC3 (.structRef "" "TEnum")) []

/-- A named string type (`type StringEnum string`) plus a record using it
with a length-constraint tag. -/
def envC4 : Env :=
  [ { pkgPath := "", name := "StringEnum" },
    { pkgPath := "", name := "S4",
      fields := [ { name := "F", typ := .prim "" "StringEnum" .str,
                    tags := [("minLength", "2")] } ] } ]

/-- First: register `StringEnum` with explicit enum values (it becomes a
stored definition). -/
def regC4a : RegResult :=
  registerModel envC4 10 {} (modelFromType envC4 (.prim "" "StringEnum" .str))
    [withEnumValuesStr ["A", "B"]]

/-- Second: register the record whose field uses `StringEnum` with a
`minLength` tag; the field registration is answered from the memo. -/
def regC4b : RegResult :=
  registerModel envC4 10 regC4a.api (modelFromType envC4 (.structRef "" "S4")) []

/-- Two records with tag-constrained plain string fields (the fresh-node
case: no shared named definition is involved). -/
def envC4f : Env :=
  [ { pkgPath := "", name := "F1",
      fields := [ { name := "A", typ := goString, tags := [("minLength", "2")] } ] },
    { pkgPath := "", name := "F2",
      fields := [ { name := "B", typ := goString, tags := [("maxLength", "7")] } ] } ]

def regC4f1 : RegResult :=
  registerModel envC4f 10 {} (modelFromType envC4f (.structRef "" "F1")) []

def regC4f2 : RegResult :=
  registerModel envC4f 10 regC4f1.api (modelFromType envC4f (.structRef "" "F2")) []

/-- A record whose field is a map with a non-string key: registration
fails after the record was marked as being visited. -/
def envC5 : Env :=
  [ { pkgPath := "", name := "Bad",
      fields := [ { name := "M", typ := .mapT goInt goString,
                    tags := [("json", "m")] } ] } ]

def regC5a : RegResult :=
  registerModel envC5 10 {} (modelFromType envC5 (.structRef "" "Bad")) []

/-- An independent second registration of the same record type on the
state the failed call left behind. -/
def regC5b : RegResult :=
  registerModel envC5 10 regC5a.api (modelFromType envC5 (.structRef "" "Bad")) []

/-- Record `C` anonymously embedding record `D` (whose self-customization
marks its field `X` required), plus an own field `Y`. -/
def envC6 : Env :=
  [ { pkgPath := "", name := "D",
      fields := [ { name := "X", typ := goString } ],
      custom := some (fun s => { s with required := ["X"] }) },
    { pkgPath := "", name := "C",
      fields := [ { name := "D", typ := .structRef "" "D", anonymous := true },
                  { name := "Y", typ := goString } ] } ]

def regC6 : RegResult :=
  registerModel envC6 10 {} (modelFromType envC6 (.structRef "" "C")) []

/-- A record with a `minLength:"2" maxLength:"5"` text field and a
`set:"foo,bar"` text field. -/
def envC7 : Env :=
  [ { pkgPath := "", name := "W",
      fields := [ { name := "Foo", typ := goString,
                    tags := [("json", "foo"), ("minLength", "2"), ("maxLength", "5")] },
                  { name := "Set", typ := goString,
                    tags := [("json", "set"), ("set", "foo,bar")] } ] } ]

def regC7 : RegResult :=
  registerModel envC7 10 {} (modelFromType envC7 (.structRef "" "W")) []

/-- A record with a malformed `minimum` and a well-formed `maximum` on an
integer field. -/
def envC8 : Env :=
  [ { pkgPath := "", name := "M8",
      fields := [ { name := "N", typ := goInt,
                    tags := [("json", "n"), ("minimum", "abc"), ("maximum", "7")] } ] } ]

def regC8 : RegResult :=
  registerModel envC8 10 {} (modelFromType envC8 (.structRef "" "M8")) []

/-- A record with a byte-slice field overridden to `string` and another
with an override value the switch ignores. -/
def envC10 : Env :=
  [ { pkgPath := "", name := "WS",
      fields := [ { name := "Foo", typ := .slice goUint8,
                    tags := [("json", "foo"), ("swaggertype", "string")] },
                  { name := "Bar", typ := .slice goUint8,
                    tags := [("json", "bar"), ("swaggertype", "integer")] } ] } ]

def regC10 : RegResult :=
  registerModel envC10 10 {} (modelFromType envC10 (.structRef "" "WS")) []

/-! ## Helper lemmas -/

/-- Boolean prefix test as an existential. -/
theorem listStartsWith_iff (p l : List Char) :
    listStartsWith p l = true ↔ ∃ t, l = p ++ t := by
  induction p generalizing l with
  | nil => simp [listStartsWith]
  | cons c p ih =>
    cases l with
    | nil => simp [listStartsWith]
    | cons x xs =>
      simp only [listStartsWith, Bool.and_eq_true, decide_eq_true_eq, ih,
        List.cons_append, List.cons.injEq]
      constructor
      · rintro ⟨hc, t, ht⟩
        exact ⟨t, hc.symm, ht⟩
      · rintro ⟨t, hx, ht⟩
        exact ⟨hx.symm, t, ht⟩

/-- The right trim drops a (whitespace) suffix of its input. -/
theorem trimRightChars_split (m : List Char) :
    ∃ t, m = trimRightChars m ++ t := by
  induction m with
  | nil => exact ⟨[], rfl⟩
  | cons x xs ih =>
    obtain ⟨t, ht⟩ := ih
    cases h : trimRightChars xs with
    | nil =>
      by_cases hx : isGoSpace x
      · exact ⟨x :: xs, by simp [trimRightChars, h, hx]⟩
      · exact ⟨xs, by simp [trimRightChars, h, hx]⟩
    | cons y ys =>
      refine ⟨t, ?_⟩
      rw [h] at ht
      simp [trimRightChars, h]
      exact ht

theorem trimRightChars_cons_ne (a : Char) (l : List Char)
    (h : trimRightChars l ≠ []) :
    trimRightChars (a :: l) = a :: trimRightChars l := by
  cases hl : trimRightChars l with
  | nil => exact absurd hl h
  | cons y ys => simp [trimRightChars, hl]

/-- Trimming on the right passes over a prefix ending in a non-space. -/
theorem trimRightChars_append_last (p r : List Char) (c : Char)
    (hc : isGoSpace c = false) :
    trimRightChars (p ++ c :: r) = p ++ c :: trimRightChars r := by
  induction p with
  | nil =>
    cases h : trimRightChars r with
    | nil => simp [trimRightChars, h, hc]
    | cons y ys => simp [trimRightChars, h]
  | cons a p ih =>
    rw [List.cons_append, trimRightChars_cons_ne a _ (by rw [ih]; simp), ih,
      List.cons_append]

/-- Right-trimming cannot create or destroy the `Deprecated:` prefix,
because the prefix ends in a non-space character. -/
theorem startsWith_dep_trimRight (m : List Char) :
    listStartsWith "Deprecated:".data (trimRightChars m) =
      listStartsWith "Deprecated:".data m := by
  have hdep : "Deprecated:".data = "Deprecated".data ++ [':'] := by decide
  have fwd : listStartsWith "Deprecated:".data m = true →
      listStartsWith "Deprecated:".data (trimRightChars m) = true := by
    intro h
    obtain ⟨t, ht⟩ := (listStartsWith_iff _ _).mp h
    rw [listStartsWith_iff]
    rw [ht, hdep, List.append_assoc, List.singleton_append,
      trimRightChars_append_last _ _ _ (by decide)]
    exact ⟨trimRightChars t, by simp⟩
  have bwd : listStartsWith "Deprecated:".data (trimRightChars m) = true →
      listStartsWith "Deprecated:".data m = true := by
    intro h
    obtain ⟨t, ht⟩ := (listStartsWith_iff _ _).mp h
    obtain ⟨t2, ht2⟩ := trimRightChars_split m
    rw [listStartsWith_iff]
    exact ⟨t ++ t2, by rw [ht2, ht, List.append_assoc]⟩
  cases hA : listStartsWith "Deprecated:".data (trimRightChars m) <;>
    cases hB : listStartsWith "Deprecated:".data m <;> simp_all

/-- Per line, `TrimSpace` (both sides, as the code does) and a
leading-only trim (as the specification says) agree on the
`Deprecated:` prefix test. -/
theorem depLineTrim (l : String) :
    goStartsWith (goTrimSpace l) "Deprecated:" =
      goStartsWith (goTrimLeft l) "Deprecated:" := by
  unfold goStartsWith goTrimSpace goTrimLeft
  exact startsWith_dep_trimRight (trimLeftChars l.data)

/-! ## Claim theorems -/

/-- Claim C1: for the schematic pair of record types `A` and `B` that
reference each other through optional pointer fields, the top-level
register call terminates and succeeds (no error, in particular not the
fuel-exhaustion error), both `A` and `B` appear exactly once in the
definitions map, and each refers to the other by symbolic `$ref` name
rather than by recursive inlining. -/
theorem c1_mutual_recursion_terminates :
    regC1.err = none ∧
    regC1.schema = some 0 ∧
    defCount regC1.api "A" = 1 ∧
    defCount regC1.api "B" = 1 ∧
    regC1.api.models.lookup "A" = some 0 ∧
    regC1.api.models.lookup "B" = some 1 ∧
    (heapRead regC1.api.heap 0).properties =
      [("model", .ref "#/components/schemas/B")] ∧
    (heapRead regC1.api.heap 1).properties =
      [("recursive", .ref "#/components/schemas/A")] ∧
    (heapRead regC1.api.heap 0).type = some "object" ∧
    (heapRead regC1.api.heap 1).type = some "object" := by
  decide

/-- Claim C2: for a non-primitive canonical name with an existing
definition, registration returns the stored schema node unchanged and
mutates nothing (the memoization clause, proved for every environment,
fuel, state, model and option list); and for a reserved primitive-kind
name the memo read is skipped: even with a (synthetic) `"string"` entry
present, registration allocates a fresh node and leaves the definitions
map untouched, so no duplicate entries can arise. -/
theorem c2_memoization :
    (∀ (env : Env) (fuel : Nat) (api : API) (model : Model)
       (opts : List ModelOpts) (a : Nat),
       primsContains (getModelName api model.typ) = false →
       api.models.lookup (getModelName api model.typ) = some a →
       registerModel env (fuel + 1) api model opts =
         ⟨api, getModelName api model.typ, some a, none⟩) ∧
    regC2.err = none ∧
    regC2.schema = some 1 ∧
    regC2.api.models = [("string", 0)] ∧
    heapRead regC2.api.heap 1 = newStringSchema := by
  refine ⟨?_, by decide, by decide, by decide, by decide⟩
  intro env fuel api model opts a h1 h2
  have hm : memoLookup api (getModelName api model.typ) = some a := by
    simp [memoLookup, h1, h2]
  simp [registerModel, registerModelStep, hm]

/-- Witness for C2's memoization clause at a concrete state. -/
theorem c2_memoization_witness :
    registerModel [] 1 { models := [("Foo", 0)], heap := [newObjectSchema] }
        (modelFromType [] (.structRef "" "Foo")) [] =
      ⟨{ models := [("Foo", 0)], heap := [newObjectSchema] }, "Foo", some 0, none⟩ :=
  c2_memoization.1 [] 0 { models := [("Foo", 0)], heap := [newObjectSchema] }
    (modelFromType [] (.structRef "" "Foo")) [] 0 (by decide) (by decide)

/-- Counterexample to claim C3 as stated: the field `baz` of `TEnum` is a
plain string whose resolved schema carries the tag-derived enum
`foo,bar,baz`, yet the containing object's properties hold the inline
pointer `SchemaRef.val 1`, not a symbolic reference. -/
theorem c3_enum_promotion_counterexample :
    regC3.err = none ∧
    (heapRead regC3.api.heap 0).properties.lookup "baz" = some (.val 1) ∧
    (heapRead regC3.api.heap 1).enum =
      [.str "foo", .str "bar", .str "baz"] ∧
    ∀ r : String,
      (heapRead regC3.api.heap 0).properties.lookup "baz" ≠ some (.ref r) := by
  refine ⟨by decide, by decide, by decide, ?_⟩
  intro r h
  rw [show (heapRead regC3.api.heap 0).properties.lookup "baz" =
      some (.val 1) from by decide] at h
  simp at h

/-- Claim C3 (amended): a schema reference for a schema carrying a
non-empty enum list is symbolic exactly when the canonical name is not a
reserved primitive-kind name; when the name is primitive (tag-derived
enums on primitive-typed fields) the schema is inlined instead. -/
theorem c3_enum_reference_amended (name : String) (heap : Heap) (addr : Nat)
    (h : (heapRead heap addr).enum ≠ []) :
    getSchemaReferenceOrValue name heap addr =
      if primsContains name then .val addr
      else .ref ("#/components/schemas/" ++ name) := by
  have hb : shouldBeReferenced (heapRead heap addr) = true := by
    unfold shouldBeReferenced
    split
    · rfl
    · simp [List.length_pos, h]
  simp [getSchemaReferenceOrValue, hb]
  cases hp : primsContains name <;> simp

/-- Witness for C3's amended theorem: a named enum is referenced, a
primitive-named enum is inlined. -/
theorem c3_enum_reference_amended_witness :
    getSchemaReferenceOrValue "Color" [{ enum := [.str "x"] }] 0 =
        .ref "#/components/schemas/Color" ∧
    getSchemaReferenceOrValue "string" [{ enum := [.str "x"] }] 0 = .val 0 :=
  ⟨(c3_enum_reference_amended "Color" [{ enum := [.str "x"] }] 0
      (by decide)).trans (by decide),
   (c3_enum_reference_amended "string" [{ enum := [.str "x"] }] 0
      (by decide)).trans (by decide)⟩

/-- Counterexample to claim C4 as stated: after `StringEnum` is stored in
the definitions map (with `minLength` zero), registering `S4` — whose
field uses `StringEnum` with a `minLength:"2"` tag — is answered from the
memo with the stored pointer, and applying the tag constraints mutates
the shared definition node: its `minLength` becomes 2. -/
theorem c4_frame_counterexample :
    regC4a.api.models.lookup "StringEnum" = some 0 ∧
    (heapRead regC4a.api.heap 0).minLength = 0 ∧
    regC4b.err = none ∧
    regC4b.api.models.lookup "StringEnum" = some 0 ∧
    (heapRead regC4b.api.heap 0).minLength = 2 := by
  decide

/-- Claim C4 (amended): tag-derived constraints are applied to the very
node the field's registration returned.  When that node is freshly
synthesized (plain string fields of `F1`/`F2`), the constraint lands only
on that use site's node — the other record's node and the definitions map
are untouched, and no `string` definition appears.  When the field's
registration is answered from the definitions memo (the `StringEnum`
case), the shared stored definition node itself is mutated. -/
theorem c4_constraint_locality_amended :
    regC4f2.err = none ∧
    (heapRead regC4f2.api.heap 1).minLength = 2 ∧
    (heapRead regC4f2.api.heap 1).maxLength = none ∧
    (heapRead regC4f2.api.heap 3).minLength = 0 ∧
    (heapRead regC4f2.api.heap 3).maxLength = some 7 ∧
    regC4f2.api.models.lookup "string" = none ∧
    regC4f2.api.models = [("F1", 0), ("F2", 2)] ∧
    (heapRead regC4b.api.heap 0).minLength = 2 ∧
    regC4b.api.models.lookup "StringEnum" = some 0 := by
  decide

/-- Claim C5 evaluated at the failing input: registering `Bad` (whose map
field has a non-string key) fails and leaves `Bad`'s identity in the
visiting set — no code path removes it.  A later independent registration
of the same never-defined record type is then answered with the minimal
placeholder object schema (and no error), contradicting the claimed
add-on-entry/remove-on-exit discipline. -/
theorem c5_visiting_never_removed :
    regC5a.err.isSome = true ∧
    regC5a.api.visitedModels = ["Bad"] ∧
    regC5a.api.models = [] ∧
    regC5b.err = none ∧
    regC5b.schema = some 1 ∧
    heapRead regC5b.api.heap 1 = { type := some "object" } ∧
    regC5b.api.visitedModels = ["Bad"] := by
  decide

/-- Claim C6: registering record `C`, which anonymously embeds record `D`
with field `X`, yields an object schema with `X` (and `C`'s own `Y`)
directly in `C`'s property map, no property named `D`, `D`'s required
field name `X` appended to `C`'s required list, and — since `D` did not
previously exist as a definition — no standalone `D` definition left in
the definitions map. -/
theorem c6_embedding_flattening :
    regC6.err = none ∧
    regC6.schema = some 0 ∧
    regC6.api.models = [("C", 0)] ∧
    defCount regC6.api "D" = 0 ∧
    (heapRead regC6.api.heap 0).properties.lookup "X" = some (.val 2) ∧
    (heapRead regC6.api.heap 0).properties.lookup "D" = none ∧
    (heapRead regC6.api.heap 0).properties.lookup "Y" = some (.val 3) ∧
    (heapRead regC6.api.heap 0).required = ["X"] := by
  decide

/-- Claim C7: a text field tagged `minLength:"2" maxLength:"5"` gets
exactly `minLength = 2` and `maxLength = 5` (for every prior schema
value), also end-to-end through registration; and the pattern synthesized
for the closed-set tag `foo,bar` accepts `"foo"` and `"bar, foo"` and
rejects `"baz"` under the regular-expression semantics. -/
theorem c7_constraint_round_trip :
    (∀ s : Schema,
       (withPropsFromStructTags [("minLength", "2"), ("maxLength", "5")]
           goString s).minLength = 2 ∧
       (withPropsFromStructTags [("minLength", "2"), ("maxLength", "5")]
           goString s).maxLength = some 5) ∧
    regC7.err = none ∧
    (heapRead regC7.api.heap 1).minLength = 2 ∧
    (heapRead regC7.api.heap 1).maxLength = some 5 ∧
    (heapRead regC7.api.heap 2).pattern =
      "^(foo|bar)(, \x7b0,1\x7d(foo|bar))*$" ∧
    patternAccepts (heapRead regC7.api.heap 2).pattern "foo" = some true ∧
    patternAccepts (heapRead regC7.api.heap 2).pattern "bar, foo" = some true ∧
    patternAccepts (heapRead regC7.api.heap 2).pattern "baz" = some false := by
  refine ⟨fun s => ⟨rfl, rfl⟩, by decide, by decide, by decide, by decide,
    by decide, by decide, by decide⟩

/-- Counterexample to claim C8 as stated: for the malformed enum element
`x` in `enums:"1,x,3"` the code does not skip the element (which would
give `[1, 3]`) nor the whole enum constraint (which would leave the
schema unchanged) — it applies the enum with a nil-interface (null)
placeholder in the malformed position. -/
theorem c8_malformed_enum_counterexample :
    (withMinMaxEnum 0 "" "" "1,x,3" {}).enum = [.num 1, .null, .num 3] ∧
    (withMinMaxEnum 0 "" "" "1,x,3" {}).enum ≠ [.num 1, .num 3] ∧
    withMinMaxEnum 0 "" "" "1,x,3" {} ≠ ({} : Schema) := by
  decide

/-- Claim C8 (amended): a malformed `minimum`, `maximum`, `minLength` or
`maxLength` value is skipped individually — the result equals the run
with that one annotation absent, all remaining constraints applied
unchanged and no error; a malformed integer enum element is NOT dropped:
the enum is still applied with a null placeholder at its position; and
the enclosing register call still succeeds, as the `M8` run (malformed
`minimum:"abc"`, well-formed `maximum:"7"`) shows. -/
theorem c8_malformed_skip_amended :
    (∀ (s : Schema) (minS maxS enumS : String), parseGoInt0 minS = none →
       withMinMaxEnum 0 minS maxS enumS s = withMinMaxEnum 0 "" maxS enumS s) ∧
    (∀ (s : Schema) (minS maxS enumS : String), parseGoInt0 maxS = none →
       withMinMaxEnum 0 minS maxS enumS s = withMinMaxEnum 0 minS "" enumS s) ∧
    (∀ (s : Schema) (minL maxL enumS : String), parseAtoi minL = none →
       withMinLMaxLEnum minL maxL enumS s = withMinLMaxLEnum "" maxL enumS s) ∧
    (∀ (s : Schema) (minL maxL enumS : String), parseAtoi maxL = none →
       withMinLMaxLEnum minL maxL enumS s = withMinLMaxLEnum minL "" enumS s) ∧
    (∀ s : Schema,
       (withMinMaxEnum 0 "" "" "1,x,3" s).enum = [.num 1, .null, .num 3]) ∧
    regC8.err = none ∧
    (heapRead regC8.api.heap 1).min = none ∧
    (heapRead regC8.api.heap 1).max = some 7 := by
  refine ⟨?_, ?_, ?_, ?_, fun s => rfl, by decide, by decide, by decide⟩
  · intro s minS maxS enumS h
    unfold withMinMaxEnum
    by_cases hm : minS = ""
    · simp [hm]
    · simp [hm, intOrFloatToFloat, h]
  · intro s minS maxS enumS h
    unfold withMinMaxEnum
    by_cases hm : maxS = ""
    · simp [hm]
    · simp [hm, intOrFloatToFloat, h]
  · intro s minL maxL enumS h
    unfold withMinLMaxLEnum
    by_cases hm : minL = ""
    · simp [hm]
    · simp [hm, h]
  · intro s minL maxL enumS h
    unfold withMinLMaxLEnum
    by_cases hm : maxL = ""
    · simp [hm]
    · simp [hm, h]

/-- Witness for C8's amended skip clauses at concrete malformed inputs. -/
theorem c8_malformed_skip_amended_witness :
    withMinMaxEnum 0 "abc" "7" "" {} = withMinMaxEnum 0 "" "7" "" {} ∧
    withMinLMaxLEnum "zz" "5" "" {} = withMinLMaxLEnum "" "5" "" {} :=
  ⟨c8_malformed_skip_amended.1 {} "abc" "7" "" (by decide),
   c8_malformed_skip_amended.2.2.1 {} "zz" "5" "" (by decide)⟩

/-- Claim C9: a comment is classified as a deprecation marker if and only
if some line, after trimming leading whitespace, begins with the literal
token `Deprecated:` (the code trims both sides, which is equivalent for a
prefix ending in a non-space); in particular a second-line `Deprecated:`
marks deprecation while the word mid-sentence does not. -/
theorem c9_deprecation_iff :
    (∀ comment : String,
       isMarkedAsDeprecated comment = true ↔
         ∃ line ∈ goSplit comment '\n',
           goStartsWith (goTrimLeft line) "Deprecated:" = true) ∧
    isMarkedAsDeprecated "FullName of something.\n Deprecated: Use FirstName" =
      true ∧
    isMarkedAsDeprecated
      "MiddleName of something. Deprecated: flag is not at a line start" =
      false := by
  refine ⟨?_, by decide, by decide⟩
  intro comment
  unfold isMarkedAsDeprecated
  simp only [List.any_eq_true, depLineTrim]

/-- Claim C10: in the `swaggertype` override switch only the value
`"string"` has an effect — any other non-empty value leaves the declared
field type unchanged; end-to-end, `Foo []uint8 swaggertype:"string"`
synthesizes as the text primitive while `Bar []uint8
swaggertype:"integer"` keeps its native array schema. -/
theorem c10_swaggertype_override :
    (∀ (o : String) (t : GoType), o ≠ "" →
       applySwaggerTypeOverride o t = if o = "string" then goString else t) ∧
    regC10.err = none ∧
    (heapRead regC10.api.heap 0).properties.lookup "foo" = some (.val 1) ∧
    (heapRead regC10.api.heap 1).type = some "string" ∧
    (heapRead regC10.api.heap 0).properties.lookup "bar" = some (.val 3) ∧
    (heapRead regC10.api.heap 3).type = some "array" := by
  refine ⟨?_, by decide, by decide, by decide, by decide, by decide⟩
  intro o t h
  unfold applySwaggerTypeOverride
  rw [if_pos h]
  rcases eq_or_ne o "string" with hs | hs
  · subst hs; simp
  · rw [if_neg hs]
    split
    · exact absurd rfl hs
    · rfl

/-- Witness for C10's override clause at concrete override values. -/
theorem c10_swaggertype_override_witness :
    applySwaggerTypeOverride "integer" (.slice goUint8) = .slice goUint8 ∧
    applySwaggerTypeOverride "string" (.slice goUint8) = goString :=
  ⟨(c10_swaggertype_override.1 "integer" (.slice goUint8) (by decide)).trans
      (by decide),
   (c10_swaggertype_override.1 "string" (.slice goUint8) (by decide)).trans
      (by decide)⟩

end Rest
